import Mathlib

/-!
# Commander X16 emulator: RTC peripheral and scheduler loop

A shallow embedding of `src/src/rtc.c` (the MCP7940N real-time clock) and of the
main loop of `src/main.c` (hypercall trap, cycle fan-out, frame interrupt).

Conventions of the embedding:

* a C `int` is a Lean `Int`; the calendar values that occur stay far below
  `2^31`, so the increments are written without a 32-bit wrap;
* a `uint8_t`, `uint16_t` or `unsigned int` is a `Nat`, and every assignment
  to such a variable reduces its right-hand side modulo `2^8`, `2^16`, `2^32`;
* expressions of `rtc.c` are evaluated in `Int`, as C does after integer
  promotion; expressions of `main.c` whose operands are all unsigned are
  evaluated in `Nat`, where they have the same value;
* the global variables of a translation unit are the fields of a structure and
  every function takes the structure and returns the updated one;
* an array read whose index the code does not guard returns an `Option`.
-/

namespace X16

/-! ## rtc.c : state -/

/-- The global variables of `rtc.c`. -/
structure RTC where
  /-- Global `bool nvram_dirty`. -/
  nvram_dirty : Bool
  /-- Global `uint8_t nvram[0x40]`. -/
  nvram : Nat → Nat
  /-- Global `static bool running`. -/
  running : Bool
  /-- Global `static bool vbaten`. -/
  vbaten : Bool
  /-- Global `static bool h24`. -/
  h24 : Bool
  /-- Global `static unsigned int clocks`. -/
  clocks : Nat
  /-- Global `static int seconds`. -/
  seconds : Int
  /-- Global `static int minutes`. -/
  minutes : Int
  /-- Global `static int hours`. -/
  hours : Int
  /-- Global `static int day_of_week`. -/
  day_of_week : Int
  /-- Global `static int day`. -/
  day : Int
  /-- Global `static int month`. -/
  month : Int
  /-- Global `static int year`. -/
  year : Int
  /-- Global `static uint8_t i2c_data[I2C_DATA_LEN]`. -/
  i2c_data : Nat → Nat
  /-- Global `static uint8_t i2c_data_pos`. -/
  i2c_data_pos : Nat

/-- Macro `#define I2C_DATA_LEN 16`. -/
def I2C_DATA_LEN : Nat := 16

/-- Conversion of an `int` value to `uint8_t`: reduction modulo 256. -/
def toU8 (x : Int) : Nat := (x % 256).toNat

/-- A `bool` promoted to `int`. -/
def b2i (b : Bool) : Int := if b then 1 else 0

/-- Conversion of an `int` value to `bool`: true exactly when it is not zero. -/
def i2b (x : Int) : Bool := x != 0

/-- Macro `#define BCD(a) (((a) / 10) << 4 | ((a) % 10))`. -/
def BCD (a : Int) : Int := Int.lor ((a.tdiv 10) <<< (4 : Int)) (a.tmod 10)

/-- Macro `#define UNBCD(a) (((a) >> 4) * 10 + ((a) & 0xf))`. -/
def UNBCD (a : Int) : Int := (a >>> (4 : Int)) * 10 + Int.land a 0xf

/-! ## rtc.c : functions -/

/-- Function `void rtc_i2c_data(uint8_t v)`. -/
def rtc_i2c_data (v : Nat) (s : RTC) : RTC :=
  if s.i2c_data_pos < I2C_DATA_LEN then
    { s with
      i2c_data := Function.update s.i2c_data s.i2c_data_pos (v % 256)
      i2c_data_pos := (s.i2c_data_pos + 1) % 256 }
  else
    s

/-- The fields of the host `struct tm` that `rtc_init` reads. -/
structure Tm where
  tm_sec : Int
  tm_min : Int
  tm_hour : Int
  tm_wday : Int
  tm_mday : Int
  tm_mon : Int
  tm_year : Int

/-- Function `void rtc_init(bool set_system_time)`; `tm` is what `localtime` returns. -/
def rtc_init (set_system_time : Bool) (tm : Tm) (s : RTC) : RTC :=
  let s := { s with vbaten := true, h24 := true, clocks := 0 }
  if set_system_time then
    { s with
      running := true
      seconds := tm.tm_sec
      minutes := tm.tm_min
      hours := tm.tm_hour
      day_of_week := if tm.tm_wday = 0 then 7 else tm.tm_wday
      day := tm.tm_mday
      month := tm.tm_mon + 1
      year := tm.tm_year - 100 }
  else
    { s with
      running := false
      seconds := 0
      minutes := 0
      hours := 0
      day_of_week := 1
      day := 1
      month := 1
      year := 0 }

/-- Global `static uint8_t days_per_month[]`. -/
def days_per_month : List Nat := [31, 28, 31, 30, 31, 30, 31, 31, 30, 31, 30, 31]

/-- The read `days_per_month[i]` for an `int` index: defined inside the table only. -/
def days_per_month_at (i : Int) : Option Nat :=
  if 0 ≤ i then days_per_month[i.toNat]? else none

/-- Function `bool is_leap_year()`: `return !(year & 3);` -/
def is_leap_year (s : RTC) : Bool := !(i2b (Int.land s.year 3))

/-- Function `void rtc_step(int c)`; `MHZ` is the `extern uint8_t MHZ` of `glue.h`.
The local names stand for the globals of the same name as the function updates
them; the state is written back at each `return`. The result is `none` when
the table `days_per_month` is read outside its bounds. -/
def rtc_step (MHZ : Nat) (c : Int) (s : RTC) : Option RTC :=
  if !s.running then
    some s
  else
    let clocks : Nat := (((s.clocks : Int) + c) % 2 ^ 32).toNat
    if clocks < (MHZ % 256) * 1000000 then
      some { s with clocks := clocks }
    else
      let clocks : Nat := clocks - (MHZ % 256) * 1000000
      let seconds : Int := s.seconds + 1
      if seconds < 60 then
        some { s with clocks := clocks, seconds := seconds }
      else
        let seconds : Int := 0
        let minutes : Int := s.minutes + 1
        if minutes < 60 then
          some { s with clocks := clocks, seconds := seconds, minutes := minutes }
        else
          let minutes : Int := 0
          let hours : Int := s.hours + 1
          if hours < 24 then
            some { s with clocks := clocks, seconds := seconds, minutes := minutes,
                          hours := hours }
          else
            let hours : Int := 0
            let day_of_week : Int := s.day_of_week + 1
            let day_of_week : Int := if day_of_week > 7 then 1 else day_of_week
            let day : Int := s.day + 1
            match days_per_month_at (s.month - 1) with
            | none => none
            | some dpm =>
              let dpm : Nat := if s.month = 2 ∧ is_leap_year s = true then (dpm + 1) % 256 else dpm
              if day ≤ (dpm : Int) then
                some { s with clocks := clocks, seconds := seconds, minutes := minutes,
                              hours := hours, day_of_week := day_of_week, day := day }
              else
                let day : Int := 1
                let month : Int := s.month + 1
                if month ≤ 12 then
                  some { s with clocks := clocks, seconds := seconds, minutes := minutes,
                                hours := hours, day_of_week := day_of_week, day := day,
                                month := month }
                else
                  let month : Int := 1
                  let year : Int := s.year + 1
                  let year : Int := if year = 100 then 0 else year
                  some { s with clocks := clocks, seconds := seconds, minutes := minutes,
                                hours := hours, day_of_week := day_of_week, day := day,
                                month := month, year := year }

/-- The value `ret` computed by the `switch` of `rtc_read`. -/
def rtc_read_value (s : RTC) : Nat :=
  let sel := s.i2c_data 0
  if sel = 0 then
    toU8 (Int.lor (BCD s.seconds) (b2i s.running <<< (7 : Int)))
  else if sel = 1 then
    toU8 (BCD s.minutes)
  else if sel = 2 then
    let h : Nat := toU8 s.hours
    let pm : Bool := false
    let hp : Nat × Bool :=
      if !s.h24 then
        let hp : Nat × Bool := if h ≥ 12 then (toU8 ((h : Int) - 12), true) else (h, pm)
        if hp.1 = 0 then (12, hp.2) else hp
      else
        (h, pm)
    let h := toU8 (BCD (hp.1 : Int))
    let h := toU8 (Int.lor h (b2i hp.2 <<< (5 : Int)))
    let h := toU8 (Int.lor h (b2i (!s.h24) <<< (6 : Int)))
    h
  else if sel = 3 then
    let v : Nat := toU8 s.day_of_week
    let v := toU8 (Int.lor v (b2i s.vbaten <<< (3 : Int)))
    let v := toU8 (Int.lor v (b2i s.running <<< (5 : Int)))
    v
  else if sel = 4 then
    toU8 (BCD s.day)
  else if sel = 5 then
    toU8 (Int.lor (BCD s.month) (b2i (is_leap_year s) <<< (5 : Int)))
  else if sel = 6 then
    toU8 (BCD s.year)
  else if sel ≥ 0x20 ∧ sel < 0x60 then
    s.nvram (sel - 0x20)
  else if sel ≥ 0x60 then
    0xff
  else
    0

/-- Function `uint8_t rtc_read()`: the returned byte and the state afterwards. -/
def rtc_read (s : RTC) : Nat × RTC :=
  (rtc_read_value s, { s with i2c_data_pos := 0 })

/-- Function `void rtc_write()`. -/
def rtc_write (s : RTC) : RTC :=
  let sel := s.i2c_data 0
  let d : Int := (s.i2c_data 1 : Int)
  let s :=
    if sel = 0 then
      { s with
        running := !!(i2b (Int.land d 0x80))
        seconds := UNBCD (Int.land d 0x7f) }
    else if sel = 1 then
      { s with minutes := UNBCD d }
    else if sel = 2 then
      let h24 : Bool := !(i2b (Int.land d 0x40))
      let h : Nat := toU8 (Int.land d 0x3f)
      let pm : Bool := false
      let hp : Nat × Bool :=
        if !h24 then (toU8 (Int.land h 0x1f), i2b (Int.land d 0x20)) else (h, pm)
      let h := toU8 (UNBCD (hp.1 : Int))
      let h := if !h24 ∧ h = 12 then 0 else h
      let h := if hp.2 then toU8 ((h : Int) + 12) else h
      { s with h24 := h24, hours := (h : Int) }
    else if sel = 3 then
      { s with
        day_of_week := Int.land d 7
        vbaten := !!(i2b (Int.land d 0x20)) }
    else if sel = 4 then
      { s with day := UNBCD d }
    else if sel = 5 then
      { s with month := UNBCD d }
    else if sel = 6 then
      { s with year := UNBCD d }
    else if sel ≥ 0x20 ∧ sel < 0x60 then
      { s with
        nvram := Function.update s.nvram (sel - 0x20) (s.i2c_data 1)
        nvram_dirty := true }
    else
      s
  { s with i2c_data_pos := 0 }

/-- The static storage of `rtc.c` at program start: C zero-initialises it, and
`nvram_dirty` and `i2c_data_pos` have the initialisers `false` and `0`. -/
def rtc_static : RTC :=
  { nvram_dirty := false
    nvram := fun _ => 0
    running := false
    vbaten := false
    h24 := false
    clocks := 0
    seconds := 0
    minutes := 0
    hours := 0
    day_of_week := 0
    day := 0
    month := 0
    year := 0
    i2c_data := fun _ => 0
    i2c_data_pos := 0 }

/-- A host time used for concrete runs (`rtc_init(false)` does not read it). -/
def tm_zero : Tm :=
  { tm_sec := 0, tm_min := 0, tm_hour := 0, tm_wday := 0, tm_mday := 0, tm_mon := 0, tm_year := 0 }

/-! ## rtc.c : the vocabulary of the properties -/

/-- The state after `rtc_init(false)` on the static storage, with the flags and
the calendar registers set to the given values. -/
def clock_at (running h24 : Bool) (seconds minutes hours day_of_week day month year : Int) :
    RTC :=
  { rtc_init false tm_zero rtc_static with
    running := running
    h24 := h24
    seconds := seconds
    minutes := minutes
    hours := hours
    day_of_week := day_of_week
    day := day
    month := month
    year := year }

/-- A running 12-hour clock at noon with the hours register selected. -/
def noon_12h : RTC := rtc_i2c_data 2 (clock_at true false 0 0 12 1 1 1 0)

/-- The clock after `rtc_init(false)` with the month register selected: 1 January
of year 0, a leap year by the rule of `is_leap_year`. -/
def january_leap : RTC := rtc_i2c_data 5 (rtc_init false tm_zero rtc_static)

/-- The clock after `rtc_init(false)` and a write of `0x7f` to the seconds register. -/
def seconds_7f : RTC :=
  rtc_write (rtc_i2c_data 0x7f (rtc_i2c_data 0 (rtc_init false tm_zero rtc_static)))

/-- The clock after `rtc_init(false)` and a write of `0x80` to the seconds
register, which starts the oscillator. -/
def started : RTC :=
  rtc_write (rtc_i2c_data 0x80 (rtc_i2c_data 0 (rtc_init false tm_zero rtc_static)))

/-- A running clock at 23:59:59 on the given weekday and date. -/
def last_second (day_of_week day month year : Int) : RTC :=
  clock_at true true 59 59 23 day_of_week day month year

/-- Reading the register selected by `i2c_data[0]` and writing the returned byte
back to the same register: `rtc_read()`, then `rtc_i2c_data(selector)`,
`rtc_i2c_data(byte)`, `rtc_write()`. -/
def reg_roundtrip (s : RTC) : RTC :=
  let r := rtc_read s
  rtc_write (rtc_i2c_data r.1 (rtc_i2c_data (s.i2c_data 0) r.2))

/-- Length of a month as the specification words it: February has 29 days
exactly when `year mod 4 = 0`. -/
def month_length (year month : Int) : Int :=
  if month = 2 then (if year % 4 = 0 then 29 else 28)
  else if month = 4 ∨ month = 6 ∨ month = 9 ∨ month = 11 then 30
  else 31

/-- The calendar invariant of the specification. -/
def CalendarValid (s : RTC) : Prop :=
  (0 ≤ s.seconds ∧ s.seconds ≤ 59) ∧ (0 ≤ s.minutes ∧ s.minutes ≤ 59) ∧
  (0 ≤ s.hours ∧ s.hours ≤ 23) ∧ (1 ≤ s.day_of_week ∧ s.day_of_week ≤ 7) ∧
  (1 ≤ s.month ∧ s.month ≤ 12) ∧ (1 ≤ s.day ∧ s.day ≤ month_length s.year s.month) ∧
  (0 ≤ s.year ∧ s.year ≤ 99)

instance (s : RTC) : Decidable (CalendarValid s) := by
  unfold CalendarValid
  infer_instance

/-- States reachable from `rtc_init(false)` by calls of `rtc_i2c_data`, `rtc_read`,
`rtc_write` and `rtc_step`, whatever the static storage held before. -/
inductive Reachable (MHZ : Nat) : RTC → Prop
  | init (tm : Tm) (s0 : RTC) : Reachable MHZ (rtc_init false tm s0)
  | i2c_data (v : Nat) {s : RTC} : Reachable MHZ s → Reachable MHZ (rtc_i2c_data v s)
  | read {s : RTC} : Reachable MHZ s → Reachable MHZ (rtc_read s).2
  | write {s : RTC} : Reachable MHZ s → Reachable MHZ (rtc_write s)
  | step (c : Int) {s s' : RTC} :
      Reachable MHZ s → rtc_step MHZ c s = some s' → Reachable MHZ s'

/-- The same, with every `rtc_write` call restricted to one that stores a value
leaving the calendar valid. -/
inductive ReachableValidWrites (MHZ : Nat) : RTC → Prop
  | init (tm : Tm) (s0 : RTC) : ReachableValidWrites MHZ (rtc_init false tm s0)
  | i2c_data (v : Nat) {s : RTC} :
      ReachableValidWrites MHZ s → ReachableValidWrites MHZ (rtc_i2c_data v s)
  | read {s : RTC} : ReachableValidWrites MHZ s → ReachableValidWrites MHZ (rtc_read s).2
  | write {s : RTC} :
      ReachableValidWrites MHZ s → CalendarValid (rtc_write s) →
      ReachableValidWrites MHZ (rtc_write s)
  | step (c : Int) {s s' : RTC} :
      ReachableValidWrites MHZ s → rtc_step MHZ c s = some s' → ReachableValidWrites MHZ s'

/-- The NVRAM transaction of the specification: write `v` to selector `0x20 + k`,
then select `0x20 + k` again and read. The result is the state after the
`rtc_write` and the outcome of the final `rtc_read`. -/
def nvram_transaction (k v : Nat) (s : RTC) : RTC × (Nat × RTC) :=
  let s3 := rtc_write (rtc_i2c_data v (rtc_i2c_data (0x20 + k) s))
  (s3, rtc_read (rtc_i2c_data (0x20 + k) s3))

/-! ## main.c : state and collaborators -/

/-- Modelled from the spec: the declarations of the CPU registers `pc`, `sp`,
`status` and of the counter `clockticks6502` (`fake6502.h`) are not part of the
sources; the program counter is 16 bits wide, the stack pointer and the status
register 8 bits, the cycle counter 32 bits. The arrays `RAM` and `ROM` are the
byte arrays that `glue.h` declares. The field `world` is the remaining state of
the collaborators (CPU registers, video, PS/2, SD card, files). -/
structure Machine (W : Type) where
  pc : Nat
  sp : Nat
  status : Nat
  clockticks6502 : Nat
  RAM : Nat → Nat
  ROM : Nat → Nat
  world : W

/-- The functions of other translation units that the main loop calls. Each may
change any part of the machine. -/
structure Collaborators (W : Type) where
  LOAD : Machine W → Machine W
  SAVE : Machine W → Machine W
  step6502 : Machine W → Machine W
  ps2_step : Machine W → Machine W
  sdcard_step : Machine W → Machine W
  video_step : Nat → Machine W → Bool × Machine W
  video_update : Machine W → Bool × Machine W
  irq6502 : Machine W → Machine W

/-- A call made by the main loop, with the value it returned where the loop uses it. -/
inductive Call where
  | LOAD
  | SAVE
  | step6502
  | ps2_step
  | sdcard_step
  | video_step (result : Bool)
  | video_update (result : Bool)
  | usleep
  | irq6502
  deriving DecidableEq, Repr

/-- Macro `#define MHZ 8` of `main.c`. -/
def MHZ : Nat := 8

/-! ## main.c : functions -/

/-- Function `static bool is_kernal()`. -/
def is_kernal {W : Type} (m : Machine W) : Bool :=
  m.ROM 0x3ff6 == 'M'.toNat &&
  m.ROM 0x3ff7 == 'I'.toNat &&
  m.ROM 0x3ff8 == 'S'.toNat &&
  m.ROM 0x3ff9 == 'T'.toNat

/-- The two assignments that end the trap block:
`pc = (RAM[0x100 + sp + 1] | (RAM[0x100 + sp + 2] << 8)) + 1; sp += 2;`.
The result is the new `(pc, sp)`. -/
def trap_return (RAM : Nat → Nat) (sp : Nat) : Nat × Nat :=
  let pc := ((RAM (0x100 + sp + 1) ||| (RAM (0x100 + sp + 2) <<< 8)) + 1) % 65536
  let sp := (sp + 2) % 256
  (pc, sp)

/-- The `LOAD_HYPERCALLS` block at the head of the loop body: the machine
afterwards and the calls made. -/
def hypercall_trap {W : Type} (E : Collaborators W) (m : Machine W) : Machine W × List Call :=
  if (m.pc = 0xffd5 ∨ m.pc = 0xffd8) ∧ is_kernal m = true ∧ m.RAM 0xba = 1 then
    let r : Machine W × List Call :=
      if m.pc = 0xffd5 then (E.LOAD m, [Call.LOAD]) else (E.SAVE m, [Call.SAVE])
    let ret := trap_return r.1.RAM r.1.sp
    ({ r.1 with pc := ret.1, sp := ret.2 }, r.2)
  else
    (m, [])

/-- The body of `for (uint8_t i = 0; i < clocks; i++)`, run `n` times: the
machine, the flag `new_frame` and the calls made so far are threaded through. -/
def cycle_loop {W : Type} (E : Collaborators W) :
    Nat → Machine W × Bool × List Call → Machine W × Bool × List Call
  | 0, st => st
  | n + 1, (m, new_frame, calls) =>
    let m := E.ps2_step m
    let m := E.sdcard_step m
    let r := E.video_step MHZ m
    cycle_loop E n (r.2, new_frame || r.1,
      calls ++ [Call.ps2_step, Call.sdcard_step, Call.video_step r.1])

/-- The value of `uint8_t clocks = clockticks6502 - old_clockticks6502;`: the
difference of two `uint32_t` values, converted to `uint8_t`. -/
def elapsed_clocks (old_clockticks6502 clockticks6502 : Nat) : Nat :=
  ((((clockticks6502 : Int) - (old_clockticks6502 : Int)) % 2 ^ 32) % 256).toNat

/-- The loop body from its head to the end of the `for` loop: trap block,
`step6502()`, then the cycle fan-out. The result is the machine, the flag
`new_frame` and the calls made. -/
def instruction_phase {W : Type} (E : Collaborators W) (m : Machine W) :
    Machine W × Bool × List Call :=
  let t := hypercall_trap E m
  let old_clockticks6502 := t.1.clockticks6502
  let m := E.step6502 t.1
  let clocks := elapsed_clocks old_clockticks6502 m.clockticks6502
  cycle_loop E clocks (m, false, t.2 ++ [Call.step6502])

/-- The block `if (new_frame) {...}` that ends the loop body, entered with the
machine `m` and the calls made so far. The Boolean of the result is false when
the block leaves the loop by `break`. -/
def frame_phase {W : Type} (E : Collaborators W) (m : Machine W) (new_frame : Bool)
    (calls : List Call) : Machine W × Bool × List Call :=
  if new_frame then
    let r := E.video_update m
    if !r.1 then
      (r.2, false, calls ++ [Call.video_update false])
    else if r.2.status &&& 4 = 0 then
      (E.irq6502 r.2, true, calls ++ [Call.video_update true, Call.usleep, Call.irq6502])
    else
      (r.2, true, calls ++ [Call.video_update true, Call.usleep])
  else
    (m, true, calls)

/-- One iteration of the `for (;;)` loop of `main` (`TRACE` is not defined and
`SDCARD_SUPPORT` is, so the two conditional blocks are absent; the counter
`instruction_counter` is read by the `TRACE` code only). -/
def iteration {W : Type} (E : Collaborators W) (m : Machine W) : Machine W × Bool × List Call :=
  let p := instruction_phase E m
  frame_phase E p.1 p.2.1 p.2.2

/-- Whether a call is a call of `video_step`, whatever it returned. -/
def Call.is_video_step : Call → Bool
  | Call.video_step _ => true
  | _ => false

/-- The calls of the three peripheral steppers of the cycle loop. -/
def stepper_call (c : Call) : Prop :=
  c = Call.ps2_step ∨ c = Call.sdcard_step ∨ ∃ b, c = Call.video_step b

/-- The 6502 subroutine return as the specification words it: both bytes of the
return address are read inside the stack page, at `0x100 + ((sp + 1) mod 256)`
and `0x100 + ((sp + 2) mod 256)`. The result is the new `(pc, sp)`. -/
def rts_spec (RAM : Nat → Nat) (sp : Nat) : Nat × Nat :=
  let lo := RAM (0x100 + (sp + 1) % 256)
  let hi := RAM (0x100 + (sp + 2) % 256)
  ((lo + 256 * hi + 1) % 65536, (sp + 2) % 256)

/-- The amount by which `step6502()` advances the 32-bit cycle counter in the
iteration started from `m`. -/
def clock_delta {W : Type} (E : Collaborators W) (m : Machine W) : Nat :=
  let t := hypercall_trap E m
  ((((E.step6502 t.1).clockticks6502 : Int) - (t.1.clockticks6502 : Int)) % 2 ^ 32).toNat

/-- A collaborator set for concrete runs over a world without state: `step6502`
advances the cycle counter by `n`, `video_step` reports a frame when the cycle
counter is a multiple of `period`, `video_update` returns `go`. -/
def test_collaborators (n period : Nat) (go : Bool) : Collaborators Unit :=
  { LOAD := fun m => m
    SAVE := fun m => m
    step6502 := fun m => { m with clockticks6502 := (m.clockticks6502 + n) % 2 ^ 32 }
    ps2_step := fun m => m
    sdcard_step := fun m => m
    video_step := fun _ m => (m.clockticks6502 % period == 0, m)
    video_update := fun m => (go, m)
    irq6502 := fun m => { m with status := m.status ||| 4 } }

/-- A memory whose stack page holds the return address `0x1234` in its first two
cells, `0x0100` and `0x0101`; every other cell is zero. -/
def wrapped_stack : Nat → Nat :=
  fun a => if a = 0x100 then 0x34 else if a = 0x101 then 0x12 else 0

/-- A ROM image that carries the signature `MIST` and is zero elsewhere. -/
def mist_rom : Nat → Nat :=
  fun a => if a = 0x3ff6 then 77 else if a = 0x3ff7 then 73 else if a = 0x3ff8 then 83
    else if a = 0x3ff9 then 84 else 0

/-- A machine stopped at the `LOAD` vector with the host device selected, the
stack pointer at `0xFF` and the return address `0x1234` in the cells `0x0100`,
`0x0101`, where a `JSR` executed with the stack pointer at `0x01` leaves it. -/
def load_at_stack_wrap : Machine Unit :=
  { pc := 0xffd5, sp := 0xff, status := 0, clockticks6502 := 0
    RAM := fun a => if a = 0xba then 1 else wrapped_stack a
    ROM := mist_rom
    world := () }

/-- A machine for concrete runs: all registers and memory cells are zero. -/
def test_machine : Machine Unit :=
  { pc := 0, sp := 0, status := 0, clockticks6502 := 0, RAM := fun _ => 0, ROM := fun _ => 0,
    world := () }

/-! ## rtc.c : the vocabulary of the properties, continued -/

/-- States reached from `s0` by calls of `rtc_i2c_data`, `rtc_read` and `rtc_write`. -/
inductive BusReachable (s0 : RTC) : RTC → Prop
  | start : BusReachable s0 s0
  | i2c_data (v : Nat) {s : RTC} : BusReachable s0 s → BusReachable s0 (rtc_i2c_data v s)
  | read {s : RTC} : BusReachable s0 s → BusReachable s0 (rtc_read s).2
  | write {s : RTC} : BusReachable s0 s → BusReachable s0 (rtc_write s)

/-- The seven calendar registers of a state. -/
def calendar (s : RTC) : Int × Int × Int × Int × Int × Int × Int :=
  (s.seconds, s.minutes, s.hours, s.day_of_week, s.day, s.month, s.year)

/-- The conditions under which `rtc_step(c)` gets as far as the read of
`days_per_month[month - 1]`: the clock runs, the accumulator reaches one second,
and seconds, minutes and hours all roll over. -/
def reaches_day_rollover (MHZ : Nat) (c : Int) (s : RTC) : Prop :=
  s.running = true ∧ ¬ ((((s.clocks : Int) + c) % 2 ^ 32).toNat < (MHZ % 256) * 1000000) ∧
  ¬ (s.seconds + 1 < 60) ∧ ¬ (s.minutes + 1 < 60) ∧ ¬ (s.hours + 1 < 24)

/-- The clock after `rtc_init(false)` and four register writes: `0xd9` to seconds
(oscillator on, 59 seconds), `0x59` to minutes, `0x23` to hours (24-hour mode,
23 hours) and `0x00` to the month register. -/
def month_zero_last_second : RTC :=
  rtc_write (rtc_i2c_data 0x00 (rtc_i2c_data 5
    (rtc_write (rtc_i2c_data 0x23 (rtc_i2c_data 2
      (rtc_write (rtc_i2c_data 0x59 (rtc_i2c_data 1
        (rtc_write (rtc_i2c_data 0xd9 (rtc_i2c_data 0
          (rtc_init false tm_zero rtc_static))))))))))))

/-- The part of `rtc_step` that follows `clocks -= (MHZ * 1000000);`, from
`seconds++` to the end of the function, entered with the new value of `clocks`. -/
def calendar_carry (clocks : Nat) (s : RTC) : Option RTC :=
  let seconds : Int := s.seconds + 1
  if seconds < 60 then
    some { s with clocks := clocks, seconds := seconds }
  else
    let seconds : Int := 0
    let minutes : Int := s.minutes + 1
    if minutes < 60 then
      some { s with clocks := clocks, seconds := seconds, minutes := minutes }
    else
      let minutes : Int := 0
      let hours : Int := s.hours + 1
      if hours < 24 then
        some { s with clocks := clocks, seconds := seconds, minutes := minutes,
                      hours := hours }
      else
        let hours : Int := 0
        let day_of_week : Int := s.day_of_week + 1
        let day_of_week : Int := if day_of_week > 7 then 1 else day_of_week
        let day : Int := s.day + 1
        match days_per_month_at (s.month - 1) with
        | none => none
        | some dpm =>
          let dpm : Nat := if s.month = 2 ∧ is_leap_year s = true then (dpm + 1) % 256 else dpm
          if day ≤ (dpm : Int) then
            some { s with clocks := clocks, seconds := seconds, minutes := minutes,
                          hours := hours, day_of_week := day_of_week, day := day }
          else
            let day : Int := 1
            let month : Int := s.month + 1
            if month ≤ 12 then
              some { s with clocks := clocks, seconds := seconds, minutes := minutes,
                            hours := hours, day_of_week := day_of_week, day := day,
                            month := month }
            else
              let month : Int := 1
              let year : Int := s.year + 1
              let year : Int := if year = 100 then 0 else year
              some { s with clocks := clocks, seconds := seconds, minutes := minutes,
                            hours := hours, day_of_week := day_of_week, day := day,
                            month := month, year := year }

/-- A register write as the bus performs it: `rtc_i2c_data(sel)`, `rtc_i2c_data(d)`,
`rtc_write()`. -/
def write_register (sel d : Nat) (t : RTC) : RTC :=
  rtc_write (rtc_i2c_data d (rtc_i2c_data sel t))

/-- A 24-hour clock that shows 07:00 and has an empty transaction buffer. -/
def seven_24h : RTC := clock_at true true 0 0 7 1 1 1 0

/-! ## main.c : the vocabulary of the properties, continued -/

/-- The round trip writes the byte that was read into `i2c_data[1]`, keeps the
selector, and then runs `rtc_write`. -/
theorem reg_roundtrip_eq (s : RTC) :
    reg_roundtrip s = rtc_write { s with
      i2c_data := Function.update (Function.update s.i2c_data 0 (s.i2c_data 0 % 256)) 1
        (rtc_read_value s % 256)
      i2c_data_pos := 2 } := by
  simp [reg_roundtrip, rtc_read, rtc_i2c_data, I2C_DATA_LEN]

/-- Within the two-digit years, `is_leap_year` is the rule `year mod 4 = 0`. -/
theorem is_leap_year_iff (s : RTC) (h0 : 0 ≤ s.year) (h1 : s.year ≤ 99) :
    is_leap_year s = true ↔ s.year % 4 = 0 := by
  unfold is_leap_year
  generalize s.year = y at *
  interval_cases y <;> decide

/-- Seconds survive the round trip, whatever the oscillator bit. -/
theorem seconds_roundtrip (s : RTC) (hsel : s.i2c_data 0 = 0) (h0 : 0 ≤ s.seconds)
    (h1 : s.seconds ≤ 59) : (reg_roundtrip s).seconds = s.seconds := by
  rw [reg_roundtrip_eq]
  simp only [rtc_write, rtc_read_value, hsel]
  simp
  generalize s.seconds = x at *
  generalize s.running = r at *
  interval_cases x <;> cases r <;> rfl

/-- Minutes survive the round trip. -/
theorem minutes_roundtrip (s : RTC) (hsel : s.i2c_data 0 = 1) (h0 : 0 ≤ s.minutes)
    (h1 : s.minutes ≤ 59) : (reg_roundtrip s).minutes = s.minutes := by
  rw [reg_roundtrip_eq]
  simp only [rtc_write, rtc_read_value, hsel]
  simp
  generalize s.minutes = x at *
  interval_cases x <;> rfl

/-- The day of the month survives the round trip. -/
theorem day_roundtrip (s : RTC) (hsel : s.i2c_data 0 = 4) (h0 : 1 ≤ s.day)
    (h1 : s.day ≤ 31) : (reg_roundtrip s).day = s.day := by
  rw [reg_roundtrip_eq]
  simp only [rtc_write, rtc_read_value, hsel]
  simp
  generalize s.day = x at *
  interval_cases x <;> rfl

/-- The year survives the round trip. -/
theorem year_roundtrip (s : RTC) (hsel : s.i2c_data 0 = 6) (h0 : 0 ≤ s.year)
    (h1 : s.year ≤ 99) : (reg_roundtrip s).year = s.year := by
  rw [reg_roundtrip_eq]
  simp only [rtc_write, rtc_read_value, hsel]
  simp
  generalize s.year = x at *
  interval_cases x <;> rfl

/-- The month survives the round trip when `is_leap_year` is false. -/
theorem month_roundtrip_common_year (s : RTC) (hsel : s.i2c_data 0 = 5) (h0 : 1 ≤ s.month)
    (h1 : s.month ≤ 12) (hy : is_leap_year s = false) :
    (reg_roundtrip s).month = s.month := by
  rw [reg_roundtrip_eq]
  simp only [rtc_write, rtc_read_value, hsel, hy]
  simp
  generalize s.month = x at *
  interval_cases x <;> rfl

/-- When `is_leap_year` is true the byte read from the month register carries
the leap flag in bit 5, `rtc_write` decodes that bit as two tens, and the month
comes back 20 too large. -/
theorem month_roundtrip_leap_year (s : RTC) (hsel : s.i2c_data 0 = 5) (h0 : 1 ≤ s.month)
    (h1 : s.month ≤ 12) (hy : is_leap_year s = true) :
    (reg_roundtrip s).month = s.month + 20 := by
  rw [reg_roundtrip_eq]
  simp only [rtc_write, rtc_read_value, hsel, hy]
  simp
  generalize s.month = x at *
  interval_cases x <;> rfl

/-- Claim C1, evaluated where it fails: right after `rtc_init(false)` (1 January
of year 0, a valid calendar, month register selected) `rtc_read` returns `0x21`,
the BCD month with the leap-year flag in bit 5, and writing that byte back with
`rtc_write` leaves month 21 instead of month 1. -/
theorem month_roundtrip_fails_in_leap_year :
    CalendarValid january_leap ∧ january_leap.i2c_data 0 = 5 ∧ january_leap.month = 1 ∧
    january_leap.year = 0 ∧ rtc_read_value january_leap = 0x21 ∧
    (reg_roundtrip january_leap).month = 21 := by
  refine ⟨by decide, by decide, by decide, by decide, by decide, by decide⟩

/-- A register write into a state with an empty buffer puts the selector and
the data byte into the first two buffer cells and then runs `rtc_write`. -/
theorem write_register_eq (sel d : Nat) (t : RTC) (ht : t.i2c_data_pos = 0) :
    write_register sel d t = rtc_write { t with
      i2c_data := Function.update (Function.update t.i2c_data 0 (sel % 256)) 1 (d % 256)
      i2c_data_pos := 2 } := by
  simp [write_register, rtc_i2c_data, I2C_DATA_LEN, ht]

/-- Claim C2: for hours 0..23 in either mode, the byte that `rtc_read` returns
for the hours register, written to the hours register of any state with an
empty buffer, whatever hours and mode that state held, yields the hours and
the mode of the state that was read; in particular writing it back to the
state that was read restores both; in 12-hour mode hour 0 reads as 12 with the
PM bit clear and hour 12 reads as 12 with the PM bit set. -/
theorem hours_roundtrip (s t : RTC) (hsel : s.i2c_data 0 = 2) (h0 : 0 ≤ s.hours)
    (h1 : s.hours ≤ 23) (ht : t.i2c_data_pos = 0) :
    (write_register 2 (rtc_read s).1 t).hours = s.hours ∧
    (write_register 2 (rtc_read s).1 t).h24 = s.h24 ∧
    (reg_roundtrip s).hours = s.hours ∧ (reg_roundtrip s).h24 = s.h24 ∧
    (s.h24 = false → s.hours = 0 →
      rtc_read_value s &&& 0x1f = 0x12 ∧ rtc_read_value s &&& 0x20 = 0) ∧
    (s.h24 = false → s.hours = 12 →
      rtc_read_value s &&& 0x1f = 0x12 ∧ rtc_read_value s &&& 0x20 = 0x20) := by
  rw [reg_roundtrip_eq, write_register_eq _ _ _ ht]
  simp only [rtc_write, rtc_read, rtc_read_value, hsel]
  simp
  generalize s.hours = x at *
  generalize s.h24 = r at *
  interval_cases x <;> cases r <;> decide

/-- A concrete instance of the hours round trip: the byte read from a 12-hour
clock at noon, written to a 24-hour clock that shows 07:00. -/
theorem hours_roundtrip_witness :
    noon_12h.i2c_data 0 = 2 ∧ noon_12h.hours = 12 ∧ noon_12h.h24 = false ∧
    seven_24h.hours = 7 ∧ seven_24h.h24 = true ∧
    (write_register 2 (rtc_read noon_12h).1 seven_24h).hours = 12 ∧
    (write_register 2 (rtc_read noon_12h).1 seven_24h).h24 = false ∧
    (reg_roundtrip noon_12h).hours = 12 ∧ (reg_roundtrip noon_12h).h24 = false ∧
    rtc_read_value noon_12h &&& 0x1f = 0x12 ∧ rtc_read_value noon_12h &&& 0x20 = 0x20 :=
  have h := hours_roundtrip noon_12h seven_24h (by decide) (by decide) (by decide) (by decide)
  ⟨by decide, by decide, by decide, by decide, by decide, h.1, h.2.1, h.2.2.1, h.2.2.2.1,
    h.2.2.2.2.2 (by decide) (by decide)⟩

/-! ## rtc.c : the calendar carry (C3, C4) -/

/-- Claim C3: a running clock at 23:59:59 on 31 December of year `y` (0..99),
weekday `w` (1..7), stepped by a call in which the accumulator reaches
`MHZ * 1000000`, ends at 00:00:00 on 1 January of year `(y + 1) mod 100`, with
weekday `w + 1`, or 1 after 7. Nothing else changes but the accumulator. -/
theorem year_rollover (MHZ : Nat) (c : Int) (s : RTC) (y w : Int)
    (hrun : s.running = true)
    (hclk : (MHZ % 256) * 1000000 ≤ (((s.clocks : Int) + c) % 2 ^ 32).toNat)
    (hy0 : 0 ≤ y) (hy1 : y ≤ 99) (hw0 : 1 ≤ w) (hw1 : w ≤ 7)
    (hs : s.seconds = 59) (hm : s.minutes = 59) (hh : s.hours = 23)
    (hd : s.day = 31) (hmo : s.month = 12) (hyr : s.year = y) (hdw : s.day_of_week = w) :
    rtc_step MHZ c s = some { s with
      clocks := (((s.clocks : Int) + c) % 2 ^ 32).toNat - (MHZ % 256) * 1000000
      seconds := 0, minutes := 0, hours := 0
      day_of_week := if w < 7 then w + 1 else 1
      day := 1, month := 1, year := (y + 1) % 100 } := by
  have hclk' : ¬ (((s.clocks : Int) + c) % 2 ^ 32).toNat < (MHZ % 256) * 1000000 := by omega
  have e1 : (if w + 1 > 7 then (1 : Int) else w + 1) = if w < 7 then w + 1 else 1 := by
    split_ifs <;> omega
  have e2 : (if y + 1 = 100 then (0 : Int) else y + 1) = (y + 1) % 100 := by
    split_ifs <;> omega
  simp only [rtc_step, hrun, hs, hm, hh, hd, hmo, hyr, hdw, days_per_month_at, days_per_month,
    hclk', e1, e2]
  simp

/-- A concrete instance of the year rollover: weekday 7, 31 December of year 99, at 8 MHz. -/
theorem year_rollover_witness :
    ∃ s', rtc_step 8 8000000 (last_second 7 31 12 99) = some s' ∧
      s'.seconds = 0 ∧ s'.minutes = 0 ∧ s'.hours = 0 ∧ s'.day_of_week = 1 ∧
      s'.day = 1 ∧ s'.month = 1 ∧ s'.year = 0 :=
  ⟨_, year_rollover 8 8000000 (last_second 7 31 12 99) 99 7 (by decide) (by decide) (by decide)
      (by decide) (by decide) (by decide) (by decide) (by decide) (by decide) (by decide)
      (by decide) (by decide) (by decide),
    by decide, by decide, by decide, by decide, by decide, by decide, by decide⟩

/-- Claim C4: a running clock at 23:59:59 in February of year `y` (0..99),
stepped by one second, goes from the 28th to 1 March when `y mod 4 ≠ 0`, from
the 28th to the 29th when `y mod 4 = 0`, and from the 29th to 1 March when
`y mod 4 = 0`; the year stays `y`. -/
theorem leap_aware_february (MHZ : Nat) (c : Int) (s : RTC) (y : Int)
    (hrun : s.running = true)
    (hclk : (MHZ % 256) * 1000000 ≤ (((s.clocks : Int) + c) % 2 ^ 32).toNat)
    (hy0 : 0 ≤ y) (hy1 : y ≤ 99)
    (hs : s.seconds = 59) (hm : s.minutes = 59) (hh : s.hours = 23)
    (hmo : s.month = 2) (hyr : s.year = y) :
    (s.day = 28 → y % 4 ≠ 0 →
      ∃ s', rtc_step MHZ c s = some s' ∧ s'.day = 1 ∧ s'.month = 3 ∧ s'.year = y) ∧
    (s.day = 28 → y % 4 = 0 →
      ∃ s', rtc_step MHZ c s = some s' ∧ s'.day = 29 ∧ s'.month = 2 ∧ s'.year = y) ∧
    (s.day = 29 → y % 4 = 0 →
      ∃ s', rtc_step MHZ c s = some s' ∧ s'.day = 1 ∧ s'.month = 3 ∧ s'.year = y) := by
  have hclk' : ¬ (((s.clocks : Int) + c) % 2 ^ 32).toNat < (MHZ % 256) * 1000000 := by omega
  have hleap := is_leap_year_iff s (by omega) (by omega)
  rw [hyr] at hleap
  refine ⟨fun hd hl => ?_, fun hd hl => ?_, fun hd hl => ?_⟩
  · have hl' : is_leap_year s = false := by
      cases h : is_leap_year s
      · rfl
      · exact absurd (hleap.mp h) hl
    simp only [rtc_step, hrun, hs, hm, hh, hd, hmo, hyr, hl', days_per_month_at, days_per_month,
      hclk']
    simp
  · have hl' : is_leap_year s = true := hleap.mpr hl
    simp only [rtc_step, hrun, hs, hm, hh, hd, hmo, hyr, hl', days_per_month_at, days_per_month,
      hclk']
    simp
  · have hl' : is_leap_year s = true := hleap.mpr hl
    simp only [rtc_step, hrun, hs, hm, hh, hd, hmo, hyr, hl', days_per_month_at, days_per_month,
      hclk']
    simp

/-- A concrete instance of the February carry: 28 February of year 5, not a leap year. -/
theorem leap_aware_february_witness :
    ∃ s', rtc_step 8 8000000 (last_second 3 28 2 5) = some s' ∧
      s'.day = 1 ∧ s'.month = 3 ∧ s'.year = 5 :=
  (leap_aware_february 8 8000000 (last_second 3 28 2 5) 5 (by decide) (by decide) (by decide)
    (by decide) (by decide) (by decide) (by decide) (by decide) (by decide)).1
    (by decide) (by decide)

/-! ## rtc.c : the calendar invariant (C5) -/

/-- Every month has at least 28 days. -/
theorem month_length_ge (y m : Int) : 28 ≤ month_length y m := by
  unfold month_length
  split_ifs <;> omega

/-- For a month in 1..12 the table read succeeds, and the value `dpm` that
`rtc_step` compares the day with is the length of the month. -/
theorem days_per_month_at_valid (y m : Int) (h0 : 1 ≤ m) (h1 : m ≤ 12) :
    ∃ d : Nat, days_per_month_at (m - 1) = some d ∧
      (((if m = 2 ∧ y % 4 = 0 then (d + 1) % 256 else d : Nat) : Int) = month_length y m) := by
  by_cases hy : y % 4 = 0 <;> interval_cases m <;>
    simp [days_per_month_at, days_per_month, month_length, hy]

/-- From a valid calendar `rtc_step` returns, and the calendar it returns is valid. -/
theorem rtc_step_preserves_valid (MHZ : Nat) (c : Int) (s : RTC) (hv : CalendarValid s) :
    ∃ s', rtc_step MHZ c s = some s' ∧ CalendarValid s' := by
  have hv' := hv
  obtain ⟨⟨hs0, hs1⟩, ⟨hm0, hm1⟩, ⟨hh0, hh1⟩, ⟨hw0, hw1⟩, ⟨hmo0, hmo1⟩, ⟨hd0, hd1⟩, hy0, hy1⟩ :=
    hv'
  have hleap := is_leap_year_iff s hy0 hy1
  by_cases hr : s.running = true
  swap
  · exact ⟨s, by simp [rtc_step, hr], hv⟩
  by_cases hc : (((s.clocks : Int) + c) % 2 ^ 32).toNat < (MHZ % 256) * 1000000
  · simp only [rtc_step, hr, hc]
    simp [CalendarValid]
    omega
  by_cases h3 : s.seconds + 1 < 60
  · simp only [rtc_step, hr, hc, h3]
    simp [CalendarValid]
    omega
  by_cases h4 : s.minutes + 1 < 60
  · simp only [rtc_step, hr, hc, h3, h4]
    simp [CalendarValid]
    omega
  by_cases h5 : s.hours + 1 < 24
  · simp only [rtc_step, hr, hc, h3, h4, h5]
    simp [CalendarValid]
    omega
  obtain ⟨d, hd, hdl⟩ := days_per_month_at_valid s.year s.month hmo0 hmo1
  simp only [rtc_step, hr, hc, h3, h4, h5, hd, hleap]
  simp only [Bool.not_true, Bool.false_eq_true, if_false, hdl]
  split_ifs <;> simp only [Option.some.injEq, exists_eq_left', CalendarValid] <;>
    refine ⟨?_, ?_, ?_, ?_, ?_, ?_, ?_⟩ <;>
    first
      | omega
      | exact ⟨le_refl _, le_trans (by norm_num) (month_length_ge _ _)⟩

/-- The calendar set by `rtc_init(false)` is valid. -/
theorem rtc_init_valid (tm : Tm) (s0 : RTC) : CalendarValid (rtc_init false tm s0) := by
  simp [rtc_init, CalendarValid, month_length]

/-- The function `rtc_i2c_data` does not touch the calendar. -/
theorem rtc_i2c_data_valid (v : Nat) (s : RTC) (hv : CalendarValid s) :
    CalendarValid (rtc_i2c_data v s) := by
  unfold rtc_i2c_data
  split_ifs
  · exact hv
  · exact hv

/-- Claim C5 as stated fails: the state reached from `rtc_init(false)` by writing
`0x7f` to the seconds register is reachable and has seconds = 85. -/
theorem calendar_invariant_fails :
    Reachable 8 seconds_7f ∧ seconds_7f.seconds = 85 ∧ ¬ CalendarValid seconds_7f :=
  ⟨Reachable.write (Reachable.i2c_data _ (Reachable.i2c_data _ (Reachable.init _ _))),
    by decide, by decide⟩

/-- Claim C5, amended: the calendar invariant holds in every state reachable from
`rtc_init(false)` by calls of `rtc_i2c_data`, `rtc_read`, `rtc_step` and those
calls of `rtc_write` that store a value leaving the calendar valid. -/
theorem calendar_invariant_valid_writes (MHZ : Nat) (s : RTC)
    (h : ReachableValidWrites MHZ s) : CalendarValid s := by
  induction h with
  | init tm s0 => exact rtc_init_valid tm s0
  | i2c_data v _ ih => exact rtc_i2c_data_valid v _ ih
  | read _ ih => exact ih
  | write _ hw _ => exact hw
  | step c _ hstep ih =>
    obtain ⟨s2, h2, hv2⟩ := rtc_step_preserves_valid MHZ c _ ih
    rw [hstep] at h2
    cases h2
    exact hv2

/-- A concrete instance of the calendar invariant: the oscillator is started by
a write of `0x80` to the seconds register and the clock is stepped by one second. -/
theorem calendar_invariant_valid_writes_witness :
    rtc_step 8 8000000 started = some { started with clocks := 0, seconds := 1 } ∧
    CalendarValid { started with clocks := 0, seconds := 1 } :=
  ⟨rfl, calendar_invariant_valid_writes 8 _
    (ReachableValidWrites.step 8000000
      (ReachableValidWrites.write
        (ReachableValidWrites.i2c_data _
          (ReachableValidWrites.i2c_data _ (ReachableValidWrites.init tm_zero rtc_static)))
        (by decide))
      (rfl : rtc_step 8 8000000 started = some { started with clocks := 0, seconds := 1 }))⟩

/-! ## rtc.c : NVRAM (C6) -/

/-- Claim C6: with an empty transaction buffer, for `k` in 0..63 and a byte `v`,
the sequence `rtc_i2c_data(0x20+k)`, `rtc_i2c_data(v)`, `rtc_write()`,
`rtc_i2c_data(0x20+k)`, `rtc_read()` returns `v`, `nvram_dirty` is true after the
`rtc_write`, and every NVRAM byte other than `k` is unchanged. -/
theorem nvram_roundtrip (k v : Nat) (s : RTC) (hk : k < 64) (hv : v < 256)
    (hpos : s.i2c_data_pos = 0) :
    (nvram_transaction k v s).2.1 = v ∧ (nvram_transaction k v s).1.nvram_dirty = true ∧
    ∀ j, j ≠ k → (nvram_transaction k v s).2.2.nvram j = s.nvram j := by
  have h1 : (0x20 + k) % 256 = 0x20 + k := Nat.mod_eq_of_lt (by omega)
  have h2 : v % 256 = v := Nat.mod_eq_of_lt hv
  have h3 : 0x20 + k - 0x20 = k := by omega
  have n0 : ¬ (0x20 + k = 0) := by omega
  have n1 : ¬ (0x20 + k = 1) := by omega
  have n2 : ¬ (0x20 + k = 2) := by omega
  have n3 : ¬ (0x20 + k = 3) := by omega
  have n4 : ¬ (0x20 + k = 4) := by omega
  have n5 : ¬ (0x20 + k = 5) := by omega
  have n6 : ¬ (0x20 + k = 6) := by omega
  have r : 0x20 + k ≥ 0x20 ∧ 0x20 + k < 0x60 := by omega
  simp only [nvram_transaction, rtc_write, rtc_read, rtc_read_value, rtc_i2c_data, I2C_DATA_LEN,
    hpos]
  simp [h1, h2, h3, n0, n1, n2, n3, n4, n5, n6, r]
  intro j hj
  simp [Function.update, hj]

/-- A concrete instance of the NVRAM round trip: byte `0xa5` written to the last NVRAM cell of
the clock as `rtc_init(false)` leaves it. -/
theorem nvram_roundtrip_witness :
    (rtc_init false tm_zero rtc_static).i2c_data_pos = 0 ∧
    (nvram_transaction 63 0xa5 (rtc_init false tm_zero rtc_static)).2.1 = 0xa5 ∧
    (nvram_transaction 63 0xa5 (rtc_init false tm_zero rtc_static)).1.nvram_dirty = true :=
  have h := nvram_roundtrip 63 0xa5 (rtc_init false tm_zero rtc_static) (by decide) (by decide)
    (by decide)
  ⟨by decide, h.1, h.2.1⟩

/-! ## main.c : the hypercall trap (C7, C8) -/

/-- On byte-valued memory the trap's return agrees with the subroutine return
as long as the two stack reads do not leave the stack page, that is for a stack
pointer of at most `0xFD`. -/
theorem trap_return_eq_rts_spec (RAM : Nat → Nat) (sp : Nat) (hsp : sp ≤ 253)
    (hbyte : ∀ a, RAM a < 256) : trap_return RAM sp = rts_spec RAM sp := by
  have e1 : (sp + 1) % 256 = sp + 1 := Nat.mod_eq_of_lt (by omega)
  have e2 : (sp + 2) % 256 = sp + 2 := Nat.mod_eq_of_lt (by omega)
  have e3 : ∀ x y : Nat, x < 256 → x ||| y <<< 8 = x + 256 * y := by
    intro x y hx
    rw [Nat.lor_comm, Nat.shiftLeft_eq, Nat.mul_comm,
      ← Nat.mul_add_lt_is_or (by simpa using hx)]
    norm_num
    ring
  simp only [trap_return, rts_spec, e1, e2, e3 _ _ (hbyte _), Nat.add_assoc]

/-- Claim C8, evaluated where it fails: with the stack pointer at `0xFF` and the
return address `0x1234` in the cells `0x0100` and `0x0101`, the subroutine
return resumes at `0x1235`, while the trap reads the cells `0x0200` and `0x0201`
outside the stack page and resumes at `0x0001`. -/
theorem trap_return_leaves_stack_page :
    rts_spec wrapped_stack 0xff = (0x1235, 1) ∧ trap_return wrapped_stack 0xff = (1, 1) ∧
    (hypercall_trap (test_collaborators 1 1 true) load_at_stack_wrap).2 = [Call.LOAD] ∧
    (rts_spec load_at_stack_wrap.RAM load_at_stack_wrap.sp).1 = 0x1235 ∧
    (hypercall_trap (test_collaborators 1 1 true) load_at_stack_wrap).1.pc = 1 := by
  refine ⟨by decide, by decide, by decide, by decide, by decide⟩

/-! ## main.c : the cycle fan-out and the frame interrupt (C9, C10) -/

/-- The cycle loop run `n` times appends to the calls a list made of stepper
calls only, with `n` calls of each stepper, and sets `new_frame` to the
disjunction of its old value and of the results of `video_step`. -/
theorem cycle_loop_calls {W : Type} (E : Collaborators W) (n : Nat) :
    ∀ (m : Machine W) (new_frame : Bool) (calls : List Call),
    ∃ L : List Call, (cycle_loop E n (m, new_frame, calls)).2.2 = calls ++ L ∧
      (∀ c ∈ L, stepper_call c) ∧
      L.count Call.ps2_step = n ∧ L.count Call.sdcard_step = n ∧
      L.countP Call.is_video_step = n ∧
      (cycle_loop E n (m, new_frame, calls)).2.1 =
        (new_frame || L.any (fun c => c == Call.video_step true)) := by
  induction n with
  | zero =>
    intro m nf calls
    exact ⟨[], by simp [cycle_loop]⟩
  | succ n ih =>
    intro m nf calls
    obtain ⟨L, h1, h2, h3, h4, h5, h6⟩ := ih (E.video_step MHZ (E.sdcard_step (E.ps2_step m))).2
      (nf || (E.video_step MHZ (E.sdcard_step (E.ps2_step m))).1)
      (calls ++ [Call.ps2_step, Call.sdcard_step,
        Call.video_step (E.video_step MHZ (E.sdcard_step (E.ps2_step m))).1])
    refine ⟨[Call.ps2_step, Call.sdcard_step,
        Call.video_step (E.video_step MHZ (E.sdcard_step (E.ps2_step m))).1] ++ L,
      ?_, ?_, ?_, ?_, ?_, ?_⟩
    · simp only [cycle_loop, h1, List.append_assoc]
    · intro c hc
      rcases List.mem_append.mp hc with hc | hc
      · simp at hc
        rcases hc with rfl | rfl | rfl
        · exact Or.inl rfl
        · exact Or.inr (Or.inl rfl)
        · exact Or.inr (Or.inr ⟨_, rfl⟩)
      · exact h2 c hc
    · simp [List.count_cons, h3]
    · simp [List.count_cons, h4]
    · simp [List.countP_cons, Call.is_video_step, h5]
    · have e1 : (Call.ps2_step == Call.video_step true) = false := by decide
      have e2 : (Call.sdcard_step == Call.video_step true) = false := by decide
      have e3 : ∀ b : Bool, (Call.video_step b == Call.video_step true) = b := by decide
      simp only [cycle_loop, h6, List.cons_append, List.nil_append, List.any_cons, e1, e2, e3,
        Bool.false_or, Bool.or_assoc]

/-- The loop counter `clocks` is the 32-bit clock delta reduced modulo 256. -/
theorem elapsed_clocks_eq {W : Type} (E : Collaborators W) (m : Machine W) :
    elapsed_clocks (hypercall_trap E m).1.clockticks6502
      (E.step6502 (hypercall_trap E m).1).clockticks6502 = clock_delta E m % 256 := by
  simp only [elapsed_clocks, clock_delta]
  omega

/-- The calls of the trap block are none, one `LOAD` or one `SAVE`. -/
theorem hypercall_trap_calls {W : Type} (E : Collaborators W) (m : Machine W) :
    (hypercall_trap E m).2 = [] ∨ (hypercall_trap E m).2 = [Call.LOAD] ∨
    (hypercall_trap E m).2 = [Call.SAVE] := by
  unfold hypercall_trap
  split_ifs <;> simp

/-- The calls of an iteration up to the end of the cycle loop: those of the trap
block, `step6502`, then `clock_delta mod 256` rounds of the three steppers; the
flag `new_frame` is the disjunction of the results of `video_step`. -/
theorem instruction_phase_calls {W : Type} (E : Collaborators W) (m : Machine W) :
    ∃ L : List Call,
      (instruction_phase E m).2.2 = (hypercall_trap E m).2 ++ [Call.step6502] ++ L ∧
      (∀ c ∈ L, stepper_call c) ∧
      L.count Call.ps2_step = clock_delta E m % 256 ∧
      L.count Call.sdcard_step = clock_delta E m % 256 ∧
      L.countP Call.is_video_step = clock_delta E m % 256 ∧
      (instruction_phase E m).2.1 = L.any (fun c => c == Call.video_step true) := by
  obtain ⟨L, h1, h2, h3, h4, h5, h6⟩ := cycle_loop_calls E (clock_delta E m % 256)
    (E.step6502 (hypercall_trap E m).1) false ((hypercall_trap E m).2 ++ [Call.step6502])
  refine ⟨L, ?_, h2, h3, h4, h5, ?_⟩
  · simp only [instruction_phase, elapsed_clocks_eq]
    exact h1
  · simp only [instruction_phase, elapsed_clocks_eq]
    rw [h6]
    simp

/-- A stepper call is neither a call of `irq6502` nor one of `video_update`. -/
theorem stepper_call_not_frame (c : Call) (h : stepper_call c) :
    c ≠ Call.irq6502 ∧ ∀ b, c ≠ Call.video_update b := by
  rcases h with rfl | rfl | ⟨b, rfl⟩ <;>
    exact ⟨fun h => (by cases h), fun _ h => (by cases h)⟩

/-- Up to the end of the cycle loop an iteration calls neither `irq6502` nor
`video_update`, and calls each stepper `clock_delta mod 256` times. -/
theorem instruction_phase_counts {W : Type} (E : Collaborators W) (m : Machine W) :
    Call.irq6502 ∉ (instruction_phase E m).2.2 ∧
    (∀ b, Call.video_update b ∉ (instruction_phase E m).2.2) ∧
    (instruction_phase E m).2.2.count Call.ps2_step = clock_delta E m % 256 ∧
    (instruction_phase E m).2.2.count Call.sdcard_step = clock_delta E m % 256 ∧
    (instruction_phase E m).2.2.countP Call.is_video_step = clock_delta E m % 256 ∧
    (instruction_phase E m).2.1 =
      (instruction_phase E m).2.2.any (fun c => c == Call.video_step true) := by
  obtain ⟨L, h1, h2, h3, h4, h5, h6⟩ := instruction_phase_calls E m
  have hL1 : Call.irq6502 ∉ L := fun h => (stepper_call_not_frame _ (h2 _ h)).1 rfl
  have hL2 : ∀ b, Call.video_update b ∉ L := fun b h => (stepper_call_not_frame _ (h2 _ h)).2 b rfl
  have e1 : (Call.LOAD == Call.video_step true) = false := by decide
  have e2 : (Call.SAVE == Call.video_step true) = false := by decide
  have e3 : (Call.step6502 == Call.video_step true) = false := by decide
  rw [h1, h6]
  rcases hypercall_trap_calls E m with hT | hT | hT <;> rw [hT] <;>
    refine ⟨?_, ?_, ?_, ?_, ?_, ?_⟩ <;>
    simp [List.count_cons, List.countP_cons, Call.is_video_step, hL1, hL2, h3, h4, h5, e1, e2, e3]

/-- The frame block appends to the calls nothing, or `video_update` alone when
it returned false, or `video_update`, `usleep` and, when bit 2 of `status` is
clear, `irq6502`. -/
theorem frame_phase_calls {W : Type} (E : Collaborators W) (m : Machine W) (new_frame : Bool)
    (calls : List Call) :
    (frame_phase E m new_frame calls).2.2 = calls ++
      (if new_frame = true then
        (if (E.video_update m).1 = true then
          (if (E.video_update m).2.status &&& 4 = 0 then
            [Call.video_update true, Call.usleep, Call.irq6502]
          else [Call.video_update true, Call.usleep])
        else [Call.video_update false])
      else []) ∧
    ((frame_phase E m new_frame calls).2.1 = false ↔
      new_frame = true ∧ (E.video_update m).1 = false) := by
  unfold frame_phase
  cases new_frame <;> cases h : (E.video_update m).1 <;> simp [h]
  all_goals split_ifs <;> simp

/-- Claim C9 as stated fails: when `step6502` advances the cycle counter by 256,
the 8-bit loop counter `clocks` is 0 and no stepper is called. -/
theorem fan_out_fails_at_256 :
    clock_delta (test_collaborators 256 1 true) test_machine = 256 ∧
    (iteration (test_collaborators 256 1 true) test_machine).2.2.count Call.ps2_step = 0 ∧
    (iteration (test_collaborators 256 1 true) test_machine).2.2.count Call.sdcard_step = 0 ∧
    (iteration (test_collaborators 256 1 true) test_machine).2.2.countP Call.is_video_step = 0 := by
  refine ⟨by decide, by decide, by decide, by decide⟩

/-- Claim C9, amended: in an iteration whose instruction advances the cycle
counter by `N` with `N ≤ 255`, the range of the 8-bit loop counter, each of
`ps2_step`, `sdcard_step` and `video_step` is called exactly `N` times. -/
theorem fan_out_counts {W : Type} (E : Collaborators W) (m : Machine W)
    (h : clock_delta E m ≤ 255) :
    (iteration E m).2.2.count Call.ps2_step = clock_delta E m ∧
    (iteration E m).2.2.count Call.sdcard_step = clock_delta E m ∧
    (iteration E m).2.2.countP Call.is_video_step = clock_delta E m := by
  obtain ⟨-, -, h3, h4, h5, -⟩ := instruction_phase_counts E m
  have hd : clock_delta E m % 256 = clock_delta E m := Nat.mod_eq_of_lt (by omega)
  rw [hd] at h3 h4 h5
  simp only [iteration, (frame_phase_calls E _ _ _).1, List.count_append, List.countP_append,
    h3, h4, h5]
  refine ⟨?_, ?_, ?_⟩ <;> split_ifs <;> simp [List.count_cons, List.countP_cons, Call.is_video_step]

/-- A concrete instance of the fan-out: an instruction of 7 cycles. -/
theorem fan_out_counts_witness :
    clock_delta (test_collaborators 7 1 true) test_machine = 7 ∧
    (iteration (test_collaborators 7 1 true) test_machine).2.2.count Call.ps2_step = 7 ∧
    (iteration (test_collaborators 7 1 true) test_machine).2.2.count Call.sdcard_step = 7 ∧
    (iteration (test_collaborators 7 1 true) test_machine).2.2.countP Call.is_video_step = 7 :=
  ⟨by decide, fan_out_counts (test_collaborators 7 1 true) test_machine (by decide)⟩

/-- Along calls of `rtc_i2c_data`, `rtc_read` and `rtc_write` the buffer position
never passes 16 once it is at most 16. -/
theorem bus_position_le (s0 s : RTC) (h0 : s0.i2c_data_pos ≤ 16) (h : BusReachable s0 s) :
    s.i2c_data_pos ≤ 16 := by
  induction h with
  | start => exact h0
  | i2c_data v _ ih =>
    unfold rtc_i2c_data I2C_DATA_LEN
    split_ifs with hlt
    · show (_ + 1) % 256 ≤ 16
      omega
    · exact ih
  | read _ _ => simp [rtc_read]
  | write _ _ => simp [rtc_write]

/-- Claim C11: with the position below 16, `rtc_i2c_data(v)` stores the byte `v`
at the position, leaves the other cells alone and advances the position by
one; with the position at 16 it changes nothing; and in every state reached
from position 0 by calls of `rtc_i2c_data`, `rtc_read` and `rtc_write` the
position is at most 16. -/
theorem buffer_capacity (s : RTC) (v : Nat) :
    (s.i2c_data_pos < 16 →
      (rtc_i2c_data v s).i2c_data s.i2c_data_pos = v % 256 ∧
      (rtc_i2c_data v s).i2c_data_pos = s.i2c_data_pos + 1 ∧
      (∀ i, i ≠ s.i2c_data_pos → (rtc_i2c_data v s).i2c_data i = s.i2c_data i)) ∧
    (s.i2c_data_pos = 16 → rtc_i2c_data v s = s) ∧
    (∀ s0 : RTC, s0.i2c_data_pos = 0 → BusReachable s0 s → s.i2c_data_pos ≤ 16) := by
  refine ⟨fun hlt => ?_, fun heq => ?_, fun s0 h0 h => bus_position_le s0 s (by omega) h⟩
  · have e : (s.i2c_data_pos + 1) % 256 = s.i2c_data_pos + 1 := Nat.mod_eq_of_lt (by omega)
    simp only [rtc_i2c_data, I2C_DATA_LEN, hlt, if_true, e]
    refine ⟨by simp, trivial, fun i hi => by simp [Function.update, hi]⟩
  · simp [rtc_i2c_data, I2C_DATA_LEN, heq]

/-! ## rtc.c : undefined registers, the stopped clock, the atomic read (C12, C13, C16) -/

/-- Claim C12: `rtc_read` returns `0xFF` for a selector of `0x60` or more and 0 for
a selector in `0x07..0x1F`; for a selector in either range `rtc_write` changes
nothing but the buffer position, which it resets to 0. -/
theorem undefined_registers (s : RTC) :
    (0x60 ≤ s.i2c_data 0 → rtc_read_value s = 0xff) ∧
    (0x07 ≤ s.i2c_data 0 ∧ s.i2c_data 0 ≤ 0x1f → rtc_read_value s = 0) ∧
    ((0x07 ≤ s.i2c_data 0 ∧ s.i2c_data 0 ≤ 0x1f) ∨ 0x60 ≤ s.i2c_data 0 →
      rtc_write s = { s with i2c_data_pos := 0 }) := by
  refine ⟨fun h => ?_, fun h => ?_, fun h => ?_⟩
  · have n0 : ¬ s.i2c_data 0 = 0 := by omega
    have n1 : ¬ s.i2c_data 0 = 1 := by omega
    have n2 : ¬ s.i2c_data 0 = 2 := by omega
    have n3 : ¬ s.i2c_data 0 = 3 := by omega
    have n4 : ¬ s.i2c_data 0 = 4 := by omega
    have n5 : ¬ s.i2c_data 0 = 5 := by omega
    have n6 : ¬ s.i2c_data 0 = 6 := by omega
    have r : ¬ (s.i2c_data 0 ≥ 0x20 ∧ s.i2c_data 0 < 0x60) := by omega
    have r2 : s.i2c_data 0 ≥ 0x60 := h
    simp only [rtc_read_value, n0, n1, n2, n3, n4, n5, n6, r, r2, if_false, if_true]
  · have n0 : ¬ s.i2c_data 0 = 0 := by omega
    have n1 : ¬ s.i2c_data 0 = 1 := by omega
    have n2 : ¬ s.i2c_data 0 = 2 := by omega
    have n3 : ¬ s.i2c_data 0 = 3 := by omega
    have n4 : ¬ s.i2c_data 0 = 4 := by omega
    have n5 : ¬ s.i2c_data 0 = 5 := by omega
    have n6 : ¬ s.i2c_data 0 = 6 := by omega
    have r : ¬ (s.i2c_data 0 ≥ 0x20 ∧ s.i2c_data 0 < 0x60) := by omega
    have r2 : ¬ s.i2c_data 0 ≥ 0x60 := by omega
    simp only [rtc_read_value, n0, n1, n2, n3, n4, n5, n6, r, r2, if_false]
  · have n0 : ¬ s.i2c_data 0 = 0 := by omega
    have n1 : ¬ s.i2c_data 0 = 1 := by omega
    have n2 : ¬ s.i2c_data 0 = 2 := by omega
    have n3 : ¬ s.i2c_data 0 = 3 := by omega
    have n4 : ¬ s.i2c_data 0 = 4 := by omega
    have n5 : ¬ s.i2c_data 0 = 5 := by omega
    have n6 : ¬ s.i2c_data 0 = 6 := by omega
    have r : ¬ (s.i2c_data 0 ≥ 0x20 ∧ s.i2c_data 0 < 0x60) := by omega
    simp only [rtc_write, n0, n1, n2, n3, n4, n5, n6, r, if_false]

/-- Claim C13: while `running` is false, `rtc_step(c)` returns and leaves the whole
state as it was, the cycle accumulator included, whatever `c` is. -/
theorem step_while_stopped (MHZ : Nat) (c : Int) (s : RTC) (h : s.running = false) :
    rtc_step MHZ c s = some s := by
  simp [rtc_step, h]

/-- A concrete instance of the stopped clock: the state after `rtc_init(false)`,
stepped by ten seconds' worth of cycles. -/
theorem step_while_stopped_witness :
    (rtc_init false tm_zero rtc_static).running = false ∧
    rtc_step 8 80000000 (rtc_init false tm_zero rtc_static) =
      some (rtc_init false tm_zero rtc_static) :=
  ⟨by decide, step_while_stopped 8 80000000 (rtc_init false tm_zero rtc_static) (by decide)⟩

/-- Claim C16: `rtc_read` leaves the state as it was but for the buffer position,
which it resets to 0; and the byte it returns does not depend on the buffer
position nor on any buffer cell other than cell 0. -/
theorem read_is_atomic (s : RTC) :
    (rtc_read s).2 = { s with i2c_data_pos := 0 } ∧
    (∀ (buffer : Nat → Nat) (pos : Nat), buffer 0 = s.i2c_data 0 →
      (rtc_read { s with i2c_data := buffer, i2c_data_pos := pos }).1 = (rtc_read s).1) := by
  refine ⟨rfl, fun buffer pos h => ?_⟩
  simp only [rtc_read, rtc_read_value, is_leap_year, h]

/-! ## rtc.c : BCD and the weekday register (C15, C17) -/

/-- Claim C17: for `x` in 0..99, `BCD(x)` has high nibble `x / 10` and low nibble
`x % 10`, fits in one byte, and `UNBCD(BCD(x)) = x`; for a byte `b` whose two
nibbles are at most 9, `BCD(UNBCD(b)) = b`. -/
theorem bcd_inverse :
    (∀ x : Int, 0 ≤ x → x ≤ 99 →
      BCD x / 16 = x / 10 ∧ BCD x % 16 = x % 10 ∧ 0 ≤ BCD x ∧ BCD x ≤ 255 ∧
      UNBCD (BCD x) = x) ∧
    (∀ b : Int, 0 ≤ b → b ≤ 255 → b / 16 ≤ 9 → b % 16 ≤ 9 → BCD (UNBCD b) = b) := by
  constructor
  · intro x h0 h1
    interval_cases x <;> decide
  · intro b h0 h1 h2 h3
    interval_cases b <;> first | omega | decide

/-- Claim C15: `rtc_write` with selector 3 sets the weekday to `d & 7` and the
battery-enable flag to bit 5 of the data byte `d`, and changes nothing else but
the buffer position; with the weekday in 0..7, `rtc_read` with selector 3
returns `weekday | battery-enable << 3 | running << 5`. -/
theorem weekday_register (s : RTC) (hsel : s.i2c_data 0 = 3) :
    rtc_write s = { s with
      day_of_week := ((s.i2c_data 1 &&& 7 : Nat) : Int)
      vbaten := (s.i2c_data 1).testBit 5
      i2c_data_pos := 0 } ∧
    (0 ≤ s.day_of_week → s.day_of_week ≤ 7 →
      rtc_read_value s =
        s.day_of_week.toNat ||| (s.vbaten.toNat <<< 3) ||| (s.running.toNat <<< 5)) := by
  constructor
  · have e1 : Int.land (s.i2c_data 1 : Int) 7 = ((s.i2c_data 1 &&& 7 : Nat) : Int) := rfl
    have e2 : Int.land (s.i2c_data 1 : Int) 0x20 = ((s.i2c_data 1 &&& 0x20 : Nat) : Int) := rfl
    have e3 : (!!(i2b (Int.land (s.i2c_data 1 : Int) 0x20))) = (s.i2c_data 1).testBit 5 := by
      rw [e2]
      simp only [i2b, Bool.not_not]
      have h32 : s.i2c_data 1 &&& 0x20 = ((s.i2c_data 1).testBit 5).toNat * 32 := by
        have := Nat.and_two_pow (s.i2c_data 1) 5
        simpa using this
      rw [h32]
      cases (s.i2c_data 1).testBit 5 <;> simp
    simp only [rtc_write, hsel]
    simp [e1, e3]
  · intro h0 h1
    simp only [rtc_read_value, hsel]
    simp
    generalize s.day_of_week = w at *
    generalize s.vbaten = a at *
    generalize s.running = b at *
    interval_cases w <;> cases a <;> cases b <;> decide

/-- A concrete instance of the weekday register: data byte `0x25` (weekday 5,
bit 5 set) written to the running clock, then read back as
`5 | 1 << 3 | 1 << 5`. -/
theorem weekday_register_witness :
    (rtc_write (rtc_i2c_data 0x25 (rtc_i2c_data 3 started))).day_of_week = 5 ∧
    (rtc_write (rtc_i2c_data 0x25 (rtc_i2c_data 3 started))).vbaten = true ∧
    rtc_read_value (rtc_write (rtc_i2c_data 0x25 (rtc_i2c_data 3 started))) = 0x2d :=
  have h := weekday_register (rtc_write (rtc_i2c_data 0x25 (rtc_i2c_data 3 started)))
    (by decide)
  ⟨by decide, by decide, (h.2 (by decide) (by decide)).trans (by decide)⟩

/-! ## rtc.c : the one-second divider (C19) -/

/-- The function `rtc_step` is the stopped-clock test and the one-second divider,
followed by `calendar_carry` when the accumulator has reached one second. -/
theorem rtc_step_eq_carry (MHZ : Nat) (c : Int) (s : RTC) :
    rtc_step MHZ c s =
      if s.running = false then some s
      else if (((s.clocks : Int) + c) % 2 ^ 32).toNat < (MHZ % 256) * 1000000 then
        some { s with clocks := (((s.clocks : Int) + c) % 2 ^ 32).toNat }
      else
        calendar_carry ((((s.clocks : Int) + c) % 2 ^ 32).toNat - (MHZ % 256) * 1000000) s := by
  cases hr : s.running
  · simp [rtc_step, hr]
  · simp only [rtc_step, calendar_carry, hr]
    rfl

/-- When the carry chain returns, the accumulator has the value it was entered
with, `running` is unchanged, and seconds went up by one or wrapped to 0. -/
theorem calendar_carry_effect (k : Nat) (s s' : RTC) (h : calendar_carry k s = some s') :
    s'.clocks = k ∧ s'.running = s.running ∧
    (s'.seconds = s.seconds + 1 ∨ (s'.seconds = 0 ∧ 59 ≤ s.seconds)) := by
  unfold calendar_carry at h
  cases hd : days_per_month_at (s.month - 1) <;> simp only [hd] at h <;>
    split_ifs at h <;>
    first
      | (cases h; exact ⟨rfl, rfl, Or.inl rfl⟩)
      | (cases h; exact ⟨rfl, rfl, Or.inr ⟨rfl, by omega⟩⟩)

/-- The calendar that the carry chain produces does not depend on the accumulator. -/
theorem calendar_carry_clocks (k k' : Nat) (s : RTC) :
    calendar_carry k' { s with clocks := 0 } =
      (calendar_carry k s).map (fun x => { x with clocks := k' }) := by
  unfold calendar_carry
  cases hd : days_per_month_at (s.month - 1) <;> simp only [hd, is_leap_year] <;>
    split_ifs <;> rfl

/-- After one call the calendar is either unchanged or the one that a call of
exactly one second's worth of cycles gives from an empty accumulator. -/
theorem rtc_step_at_most_one_second (MHZ : Nat) (c : Int) (s s' : RTC)
    (h : rtc_step MHZ c s = some s') :
    calendar s' = calendar s ∨
    ∃ s'', rtc_step MHZ (((MHZ % 256) * 1000000 : Nat) : Int) { s with clocks := 0 } = some s'' ∧
      calendar s'' = calendar s' := by
  rw [rtc_step_eq_carry] at h
  cases hr : s.running
  · simp only [hr, if_true] at h
    cases h
    exact Or.inl rfl
  · simp only [hr, Bool.true_eq_false, if_false] at h
    split_ifs at h with hlt
    · cases h
      exact Or.inl rfl
    · right
      have hT : ((((0 : Nat) : Int) + (((MHZ % 256) * 1000000 : Nat) : Int)) % 2 ^ 32).toNat =
          (MHZ % 256) * 1000000 := by omega
      refine ⟨{ s' with clocks := 0 }, ?_, rfl⟩
      rw [rtc_step_eq_carry]
      simp only [hr, Bool.true_eq_false, if_false, hT, lt_irrefl, Nat.sub_self]
      have key := calendar_carry_clocks
        ((((s.clocks : Int) + c) % 2 ^ 32).toNat - (MHZ % 256) * 1000000) 0 s
      rw [h] at key
      simpa [hr] using key

/-- The value decoded from the low seven bits of a byte is not negative. -/
theorem unbcd_low7_nonneg (n : Nat) : 0 ≤ UNBCD (Int.land (n : Int) 0x7f) := by
  have e : Int.land (n : Int) 0x7f = ((n &&& 0x7f : Nat) : Int) := rfl
  rw [e]
  have hb : n &&& 0x7f ≤ 0x7f := Nat.and_le_right
  generalize n &&& 0x7f = m at hb
  interval_cases m <;> decide

/-- The function `rtc_write` never makes seconds negative. -/
theorem rtc_write_seconds_nonneg (s : RTC) (h : 0 ≤ s.seconds) : 0 ≤ (rtc_write s).seconds := by
  unfold rtc_write
  simp only
  split_ifs
  · exact unbcd_low7_nonneg _
  all_goals exact h

/-- The function `rtc_step` never makes seconds negative. -/
theorem rtc_step_seconds_nonneg (MHZ : Nat) (c : Int) (s s' : RTC)
    (hs : rtc_step MHZ c s = some s') (h : 0 ≤ s.seconds) : 0 ≤ s'.seconds := by
  rcases rtc_step_at_most_one_second MHZ c s s' hs with hc | ⟨s'', h2, hc⟩
  · have : s'.seconds = s.seconds := congrArg Prod.fst hc
    omega
  · have e : s''.seconds = s'.seconds := congrArg Prod.fst hc
    rw [rtc_step_eq_carry] at h2
    split_ifs at h2 with h3 h4
    · cases h2; rw [← e]; exact h
    · cases h2; rw [← e]; exact h
    · obtain ⟨-, -, h5⟩ := calendar_carry_effect _ _ _ h2
      simp only at h5
      omega

/-- In every reachable state seconds is at least 0. -/
theorem reachable_seconds_nonneg (MHZ : Nat) (s : RTC) (h : Reachable MHZ s) :
    0 ≤ s.seconds := by
  induction h with
  | init tm s0 => simp [rtc_init]
  | i2c_data v _ ih =>
    unfold rtc_i2c_data
    split_ifs
    · exact ih
    · exact ih
  | read _ ih => exact ih
  | write _ ih => exact rtc_write_seconds_nonneg _ ih
  | step c _ hstep ih => exact rtc_step_seconds_nonneg MHZ c _ _ hstep ih

/-- Claim C14 as stated fails: after `rtc_init(false)` and a write of `0x7f` to the
seconds register the clock is stopped and seconds is 85, and `rtc_read` with
selector 0 returns `0x85`, with bit 7 set. -/
theorem seconds_register_fails :
    Reachable 8 seconds_7f ∧ seconds_7f.i2c_data 0 = 0 ∧ seconds_7f.running = false ∧
    seconds_7f.seconds = 85 ∧ rtc_read_value seconds_7f = 0x85 ∧
    rtc_read_value seconds_7f &&& 0x80 = 0x80 :=
  ⟨Reachable.write (Reachable.i2c_data _ (Reachable.i2c_data _ (Reachable.init _ _))),
    by decide, by decide, by decide, by decide, by decide⟩

/-- Claim C14, amended: in every state reachable from `rtc_init(false)` in which
seconds is at most 79, `rtc_read` with selector 0 returns a byte whose bit 7 is
set exactly when `running` is true and whose low seven bits are `BCD(seconds)`,
that is tens in the high nibble and units in the low nibble. -/
theorem seconds_register_encoding (MHZ : Nat) (s : RTC) (h : Reachable MHZ s)
    (hsel : s.i2c_data 0 = 0) (hs : s.seconds ≤ 79) :
    (rtc_read_value s &&& 0x80 = 0x80 ↔ s.running = true) ∧
    ((rtc_read_value s &&& 0x7f : Nat) : Int) = BCD s.seconds ∧
    BCD s.seconds = 16 * (s.seconds / 10) + s.seconds % 10 := by
  have h0 := reachable_seconds_nonneg MHZ s h
  simp only [rtc_read_value, hsel, if_true]
  generalize s.seconds = x at *
  generalize s.running = r at *
  interval_cases x <;> cases r <;> decide

/-- A concrete instance of the seconds register: the running clock right after
the oscillator was started reads `0x80`. -/
theorem seconds_register_encoding_witness :
    started.i2c_data 0 = 0 ∧ started.seconds = 0 ∧ started.running = true ∧
    rtc_read_value started &&& 0x80 = 0x80 ∧
    ((rtc_read_value started &&& 0x7f : Nat) : Int) = BCD started.seconds :=
  have h := seconds_register_encoding 8 started
    (Reachable.write (Reachable.i2c_data _ (Reachable.i2c_data _ (Reachable.init _ _))))
    (by decide) (by decide)
  ⟨by decide, by decide, by decide, h.1.mpr (by decide), h.2.1⟩

/-! ## rtc.c : validity under `rtc_step` and the table index (C18, C20) -/

/-- Claim C18: from a state with a valid calendar, `rtc_step(c)` returns, for every
cycle count `c`, and the calendar of the state it returns is valid. -/
theorem rtc_step_keeps_calendar_valid (MHZ : Nat) (c : Int) (s : RTC)
    (hv : CalendarValid s) : ∃ s', rtc_step MHZ c s = some s' ∧ CalendarValid s' :=
  rtc_step_preserves_valid MHZ c s hv

/-- A concrete instance of the preserved validity: the last second of 29 February
of year 96. -/
theorem rtc_step_keeps_calendar_valid_witness :
    CalendarValid (last_second 4 29 2 96) ∧
    ∃ s', rtc_step 8 8000000 (last_second 4 29 2 96) = some s' ∧ CalendarValid s' :=
  ⟨by decide, rtc_step_keeps_calendar_valid 8 8000000 (last_second 4 29 2 96) (by decide)⟩

/-- Claim C20, evaluated where it fails: after `rtc_init(false)` and writes of
`0xd9`, `0x59`, `0x23` and `0x00` to the seconds, minutes, hours and month
registers, the state is reachable, a call `rtc_step(8000000)` at 8 MHz gets to the
read of `days_per_month[month - 1]`, and the index is `-1`, outside the table. -/
theorem month_index_out_of_bounds :
    Reachable 8 month_zero_last_second ∧
    reaches_day_rollover 8 8000000 month_zero_last_second ∧
    month_zero_last_second.month - 1 = -1 ∧
    days_per_month_at (month_zero_last_second.month - 1) = none ∧
    (rtc_step 8 8000000 month_zero_last_second).isNone = true := by
  refine ⟨?_, ?_, by decide, by decide, by decide⟩
  · exact Reachable.write (Reachable.i2c_data _ (Reachable.i2c_data _
      (Reachable.write (Reachable.i2c_data _ (Reachable.i2c_data _
        (Reachable.write (Reachable.i2c_data _ (Reachable.i2c_data _
          (Reachable.write (Reachable.i2c_data _ (Reachable.i2c_data _
            (Reachable.init _ _))))))))))))
  · unfold reaches_day_rollover
    decide

end X16
